import Mathlib

/-!
Verification of the database migration runner (scripts/run_migrations.py).

The runner is embedded shallowly:

* A migration script file is a `MigFile`: its filename plus either its text
  (`Except.ok body`) or the I/O error raised when opening it
  (`Except.error e`, modelling an unreadable file).
* The database is a `DB S`: the bookkeeping table `schema_migrations`
  (absent, or present with its ordered list of `migration_id` rows) together
  with an abstract target-schema state of type `S`.  SQL execution of a
  script body is an oracle `exec : String → S → Except String S`; a script
  runs as a single transaction, so a failing body leaves the schema state
  unchanged (psycopg2 executes the whole body in one transaction and the
  runner commits only on success).
* The migrations directory is `Option (List MigFile)`: `none` when the
  directory is missing, otherwise its entries in arbitrary on-disk order.
* Python string comparison (used by `sorted`) is code-point lexicographic
  order, embedded as `lexLeB` on `List Char`; the glob pattern `*.sql`
  full-matches exactly the names ending in `.sql`, embedded with
  `List.isSuffixOf`.
* Console outcomes of the loop are recorded as `Event`s
  (skip / would-apply / applied / failed), one per migration considered.
-/

deriving instance DecidableEq for Except

/-- A file of the migrations directory: name, and its content or the
error raised when reading it. -/
structure MigFile where
  name : String
  content : Except String String
deriving DecidableEq, Repr

/-- Database state: the `schema_migrations` bookkeeping table (`none` when
the table does not exist, otherwise its `migration_id` rows in insertion
order) and the abstract target schema. -/
structure DB (S : Type) where
  schema_migrations : Option (List String)
  schema : S
deriving DecidableEq, Repr

/-- The rows of the bookkeeping table (empty when the table is absent). -/
def DB.rows {S : Type} (db : DB S) : List String :=
  db.schema_migrations.getD []

/-- Per-migration outcome of the loop, as reported on the console. -/
inductive Event where
  | SKIPPED_ALREADY_APPLIED (name : String)
  | WOULD_APPLY (name : String)
  | APPLIED (name : String)
  | FAILED (name : String) (err : String)
deriving DecidableEq, Repr

/-- The filename an event reports about. -/
def Event.fileName : Event → String
  | .SKIPPED_ALREADY_APPLIED n => n
  | .WOULD_APPLY n => n
  | .APPLIED n => n
  | .FAILED n _ => n

/-- Whether an event is a failure. -/
def Event.isFAILED : Event → Bool
  | .FAILED _ _ => true
  | _ => false

/-- Result of the apply loop: counters, per-migration events in order, and
the final database state. -/
structure LoopResult (S : Type) where
  appliedCount : Nat
  failedCount : Nat
  events : List Event
  db : DB S
deriving DecidableEq, Repr

/-- Result of a whole run: process exit code, counters, events, final
database state. -/
structure RunResult (S : Type) where
  exit : Nat
  appliedCount : Nat
  failedCount : Nat
  events : List Event
  db : DB S
deriving DecidableEq, Repr

/-- Index of the last `'.'` in a character list (Python `str.rfind(".")`,
`none` standing for Python's `-1`). -/
def rIdxOfDot : List Char → Option Nat
  | [] => none
  | c :: cs =>
    match rIdxOfDot cs with
    | some j => some (j + 1)
    | none => if c = '.' then some 0 else none

/-- `extract_migration_id` (run_migrations.py line 102): `Path(filename).stem`,
i.e. the name cut at its last dot when that dot is neither the first nor the
last character, the whole name otherwise. -/
def extract_migration_id (filename : String) : String :=
  match rIdxOfDot filename.data with
  | none => filename
  | some i =>
      if 0 < i ∧ i < filename.data.length - 1 then String.mk (filename.data.take i)
      else filename

/-- Code-point lexicographic `≤` on character lists: the order Python uses
to compare strings in `sorted`. -/
def lexLeB : List Char → List Char → Bool
  | [], _ => true
  | _ :: _, [] => false
  | a :: as, b :: bs => if a < b then true else if b < a then false else lexLeB as bs

/-- Catalog order: ascending filenames. -/
def byName (f g : MigFile) : Prop := lexLeB f.name.data g.name.data = true

instance : DecidableRel byName := fun f g =>
  inferInstanceAs (Decidable (lexLeB f.name.data g.name.data = true))

/-- The glob pattern `*.sql` full-matches a filename exactly when the name
ends with `.sql`. -/
def matchesSql (f : MigFile) : Bool := List.isSuffixOf ".sql".data f.name.data

/-- `get_migration_files` (line 87): missing directory is fatal (`none`),
otherwise the `*.sql` entries sorted by filename. -/
def get_migration_files (dir : Option (List MigFile)) : Option (List MigFile) :=
  match dir with
  | none => none
  | some entries => some (List.insertionSort byName (entries.filter matchesSql))

/-- `create_migrations_table` (line 56): `CREATE TABLE IF NOT EXISTS
schema_migrations`, committed. -/
def create_migrations_table {S : Type} (db : DB S) : DB S :=
  match db.schema_migrations with
  | none => { db with schema_migrations := some [] }
  | some _ => db

/-- `get_applied_migrations` (line 68): ensure the table exists, then
`SELECT migration_id FROM schema_migrations`. -/
def get_applied_migrations {S : Type} (db : DB S) : DB S × List String :=
  let db1 := create_migrations_table db
  (db1, db1.rows)

/-- `mark_migration_applied` (line 77): `INSERT ... ON CONFLICT DO NOTHING`,
committed; errors when the table does not exist. -/
def mark_migration_applied {S : Type} (db : DB S) (mid : String) :
    Except String (DB S) :=
  match db.schema_migrations with
  | none => .error "relation schema_migrations does not exist"
  | some rows =>
      .ok { db with schema_migrations := some (if mid ∈ rows then rows else rows ++ [mid]) }

/-- `apply_migration` (line 110): read the file, execute its body as one
transaction and commit, then record the id.  Any raised error is caught,
the open transaction rolled back, and `False` returned; the second
component carries the error (`none` meaning success / `True`). -/
def apply_migration {S : Type} (exec : String → S → Except String S)
    (db : DB S) (f : MigFile) : DB S × Option String :=
  match f.content with
  | .error e => (db, some e)
  | .ok body =>
    match exec body db.schema with
    | .error e => (db, some e)
    | .ok s' =>
      let db1 : DB S := { db with schema := s' }
      match mark_migration_applied db1 (extract_migration_id f.name) with
      | .error e => (db1, some e)
      | .ok db2 => (db2, none)

/-- The `for migration_file in migration_files` loop of `run_migrations`
(lines 195-211): skip ids in the applied snapshot, count would-applies in
dry-run mode, otherwise apply and break on the first failure. -/
def migrationLoop {S : Type} (exec : String → S → Except String S)
    (dry : Bool) (applied : List String) : List MigFile → DB S → LoopResult S
  | [], db => ⟨0, 0, [], db⟩
  | f :: rest, db =>
    if extract_migration_id f.name ∈ applied then
      let r := migrationLoop exec dry applied rest db
      ⟨r.appliedCount, r.failedCount, .SKIPPED_ALREADY_APPLIED f.name :: r.events, r.db⟩
    else if dry then
      let r := migrationLoop exec dry applied rest db
      ⟨r.appliedCount + 1, r.failedCount, .WOULD_APPLY f.name :: r.events, r.db⟩
    else
      match apply_migration exec db f with
      | (db', none) =>
        let r := migrationLoop exec dry applied rest db'
        ⟨r.appliedCount + 1, r.failedCount, .APPLIED f.name :: r.events, r.db⟩
      | (db', some e) => ⟨0, 1, [.FAILED f.name e], db'⟩

/-- `run_migrations` (line 151): connect (failure returns 1), list the
migration files (missing directory exits 1), return 0 on an empty catalog,
otherwise load the applied snapshot, run the loop, and exit 0 exactly when
no migration failed. -/
def run_migrations {S : Type} (exec : String → S → Except String S)
    (dry_run : Bool) (connOk : Bool) (dir : Option (List MigFile))
    (db : DB S) : RunResult S :=
  if connOk then
    match get_migration_files dir with
    | none => ⟨1, 0, 0, [], db⟩
    | some files =>
      if files.isEmpty then ⟨0, 0, 0, [], db⟩
      else
        let ga := get_applied_migrations db
        let r := migrationLoop exec dry_run ga.2 files ga.1
        ⟨if r.failedCount = 0 then 0 else 1, r.appliedCount, r.failedCount, r.events, r.db⟩
  else ⟨1, 0, 0, [], db⟩

/-- Replace a file's content, keeping its name (used to state that a mode
never reads script bodies). -/
def setContent (g : String → Except String String) (f : MigFile) : MigFile :=
  ⟨f.name, g f.name⟩

/-- Concrete oracle for witnesses: every body succeeds and appends itself
to the schema state. -/
def execOK : String → List String → Except String (List String) :=
  fun b s => .ok (s ++ [b])

/-- Concrete oracle for witnesses: the body "bad" fails, every other body
succeeds and appends itself. -/
def execFail : String → List String → Except String (List String) :=
  fun b s => if b = "bad" then .error "boom" else .ok (s ++ [b])

/-- A fresh database: no bookkeeping table, empty schema. -/
def dbFresh : DB (List String) := ⟨none, []⟩

/-! ## Order lemmas: `lexLeB` is a total preorder -/

lemma lexLeB_total (a : List Char) : ∀ b, lexLeB a b = true ∨ lexLeB b a = true := by
  induction a with
  | nil => intro b; left; rfl
  | cons x xs ih =>
    intro b
    cases b with
    | nil => right; rfl
    | cons y ys =>
      rcases lt_trichotomy x y with h | h | h
      · left; simp [lexLeB, h]
      · subst h
        rcases ih ys with h2 | h2
        · left; simp [lexLeB, lt_irrefl, h2]
        · right; simp [lexLeB, lt_irrefl, h2]
      · right; simp [lexLeB, h]

lemma lexLeB_trans (a : List Char) :
    ∀ b c, lexLeB a b = true → lexLeB b c = true → lexLeB a c = true := by
  induction a with
  | nil => intro b c _ _; rfl
  | cons x xs ih =>
    intro b c hab hbc
    cases b with
    | nil => simp [lexLeB] at hab
    | cons y ys =>
      cases c with
      | nil => simp [lexLeB] at hbc
      | cons z zs =>
        rcases lt_trichotomy x y with hxy | hxy | hxy
        · rcases lt_trichotomy y z with hyz | hyz | hyz
          · simp [lexLeB, lt_trans hxy hyz]
          · subst hyz; simp [lexLeB, hxy]
          · simp [lexLeB, hyz, lt_asymm hyz] at hbc
        · subst hxy
          rcases lt_trichotomy x z with hyz | hyz | hyz
          · simp [lexLeB, hyz]
          · subst hyz
            simp only [lexLeB, lt_irrefl, if_false] at hab hbc ⊢
            exact ih ys zs hab hbc
          · simp [lexLeB, hyz, lt_asymm hyz] at hbc
        · simp [lexLeB, hxy, lt_asymm hxy] at hab

instance : IsTotal MigFile byName := ⟨fun f g => lexLeB_total f.name.data g.name.data⟩

instance : IsTrans MigFile byName :=
  ⟨fun _ _ _ hab hbc => lexLeB_trans _ _ _ hab hbc⟩

/-! ## Identity derivation lemmas -/

lemma rIdxOfDot_eq_none (ys : List Char) (h : ∀ c ∈ ys, c ≠ '.') :
    rIdxOfDot ys = none := by
  induction ys with
  | nil => rfl
  | cons c cs ih =>
    simp only [rIdxOfDot]
    rw [ih (fun d hd => h d (List.mem_cons_of_mem _ hd))]
    simp [h c (List.mem_cons_self _ _)]

lemma rIdxOfDot_append (xs ys : List Char) (h : ∀ c ∈ ys, c ≠ '.') :
    rIdxOfDot (xs ++ '.' :: ys) = some xs.length := by
  induction xs with
  | nil =>
    show rIdxOfDot ('.' :: ys) = some 0
    simp [rIdxOfDot, rIdxOfDot_eq_none ys h]
  | cons x xs ih =>
    show rIdxOfDot (x :: (xs ++ '.' :: ys)) = some (xs.length + 1)
    simp only [rIdxOfDot, List.append_eq]
    rw [ih]

lemma extract_migration_id_append_sql (base : String) (hb : base ≠ "") :
    extract_migration_id (base ++ ".sql") = base := by
  obtain ⟨cs⟩ := base
  have hcs : cs ≠ [] := by
    intro h
    subst h
    exact hb rfl
  have hlen : 0 < cs.length := List.length_pos.mpr hcs
  have hdot : ∀ c ∈ ['s', 'q', 'l'], c ≠ '.' := by decide
  have hidx : rIdxOfDot (cs ++ '.' :: ['s', 'q', 'l']) = some cs.length :=
    rIdxOfDot_append cs _ hdot
  show extract_migration_id (String.mk (cs ++ '.' :: ['s', 'q', 'l'])) = String.mk cs
  unfold extract_migration_id
  simp only [hidx]
  have hcond : 0 < cs.length ∧ cs.length < (cs ++ '.' :: ['s', 'q', 'l']).length - 1 := by
    refine ⟨hlen, ?_⟩
    rw [List.length_append]
    simp only [List.length_cons, List.length_nil]
    omega
  rw [if_pos hcond, List.take_left]

/-! ## Small database lemmas -/

section
variable {S : Type} {exec : String → S → Except String S} {dry : Bool}
variable {applied : List String} {f : MigFile} {rest files : List MigFile}
variable {db db' : DB S} {e : String}

lemma create_migrations_table_sm (db : DB S) :
    (create_migrations_table db).schema_migrations = some db.rows := by
  cases h : db.schema_migrations <;> simp [create_migrations_table, h, DB.rows]

lemma create_migrations_table_rows (db : DB S) :
    (create_migrations_table db).rows = db.rows := by
  rw [DB.rows, create_migrations_table_sm]
  rfl

lemma create_migrations_table_schema (db : DB S) :
    (create_migrations_table db).schema = db.schema := by
  cases h : db.schema_migrations <;> simp [create_migrations_table, h]

/-! ## `apply_migration` lemmas -/

lemma apply_migration_rows {mid : String}
    (h : mid ∈ (apply_migration exec db f).1.rows) :
    mid ∈ db.rows ∨ (mid = extract_migration_id f.name ∧
      ∃ body s', f.content = .ok body ∧ exec body db.schema = .ok s') := by
  rcases hc : f.content with e | body
  · rw [apply_migration, hc] at h
    exact Or.inl h
  · rcases he : exec body db.schema with e | s'
    · rw [apply_migration, hc] at h
      simp only [he] at h
      exact Or.inl h
    · rcases hm : db.schema_migrations with _ | rows
      · rw [apply_migration, hc] at h
        simp only [he, mark_migration_applied, hm] at h
        simp [DB.rows] at h
      · rw [apply_migration, hc] at h
        simp only [he, mark_migration_applied, hm] at h
        simp only [DB.rows, hm, Option.getD_some] at h ⊢
        by_cases hmem : extract_migration_id f.name ∈ rows
        · rw [if_pos hmem] at h
          exact Or.inl h
        · rw [if_neg hmem] at h
          simp at h
          rcases h with h | h
          · exact Or.inl h
          · exact Or.inr ⟨h, body, s', rfl, he⟩

lemma apply_migration_content_err (hc : f.content = .error e) :
    apply_migration exec db f = (db, some e) := by
  rw [apply_migration, hc]

lemma apply_migration_exec_err {body : String} (hc : f.content = .ok body)
    (he : exec body db.schema = .error e) :
    apply_migration exec db f = (db, some e) := by
  rw [apply_migration, hc]
  simp [he]

lemma apply_migration_ok_sm {rows : List String}
    (hsm : db.schema_migrations = some rows)
    (hok : (apply_migration exec db f).2 = none) :
    ∃ body s', f.content = .ok body ∧ exec body db.schema = .ok s' ∧
      (apply_migration exec db f).1 =
        ⟨some (if extract_migration_id f.name ∈ rows then rows
               else rows ++ [extract_migration_id f.name]), s'⟩ := by
  rcases hc : f.content with e | body
  · rw [apply_migration_content_err hc] at hok
    simp at hok
  · rcases he : exec body db.schema with e | s'
    · rw [apply_migration_exec_err hc he] at hok
      simp at hok
    · refine ⟨body, s', rfl, he, ?_⟩
      rw [apply_migration, hc]
      simp only [he, mark_migration_applied, hsm]

/-! ## Loop branch equations -/

lemma migrationLoop_nil (db : DB S) :
    migrationLoop exec dry applied [] db = ⟨0, 0, [], db⟩ := rfl

lemma migrationLoop_cons_skip (h : extract_migration_id f.name ∈ applied) (db : DB S) :
    migrationLoop exec dry applied (f :: rest) db =
      (let r := migrationLoop exec dry applied rest db
       ⟨r.appliedCount, r.failedCount, .SKIPPED_ALREADY_APPLIED f.name :: r.events, r.db⟩) := by
  simp [migrationLoop, h]

lemma migrationLoop_cons_dry (h : extract_migration_id f.name ∉ applied) (db : DB S) :
    migrationLoop exec true applied (f :: rest) db =
      (let r := migrationLoop exec true applied rest db
       ⟨r.appliedCount + 1, r.failedCount, .WOULD_APPLY f.name :: r.events, r.db⟩) := by
  simp [migrationLoop, h]

lemma migrationLoop_cons_ok (h : extract_migration_id f.name ∉ applied)
    (ha : apply_migration exec db f = (db', none)) :
    migrationLoop exec false applied (f :: rest) db =
      (let r := migrationLoop exec false applied rest db'
       ⟨r.appliedCount + 1, r.failedCount, .APPLIED f.name :: r.events, r.db⟩) := by
  simp [migrationLoop, h, ha]

lemma migrationLoop_cons_fail (h : extract_migration_id f.name ∉ applied)
    (ha : apply_migration exec db f = (db', some e)) :
    migrationLoop exec false applied (f :: rest) db = ⟨0, 1, [.FAILED f.name e], db'⟩ := by
  simp [migrationLoop, h, ha]

end

/-! ## Loop induction lemmas -/

section
variable {S : Type} {exec : String → S → Except String S} {dry : Bool}
variable {applied : List String} {db : DB S}

lemma migrationLoop_countP_failed :
    ∀ (files : List MigFile) (db : DB S),
      (migrationLoop exec dry applied files db).events.countP Event.isFAILED
        = (migrationLoop exec dry applied files db).failedCount := by
  intro files
  induction files with
  | nil => intro db; rfl
  | cons f rest ih =>
    intro db
    by_cases hmem : extract_migration_id f.name ∈ applied
    · rw [migrationLoop_cons_skip hmem]
      simp [List.countP_cons, Event.isFAILED, ih db]
    · cases dry with
      | true =>
        rw [migrationLoop_cons_dry hmem]
        simp [List.countP_cons, Event.isFAILED, ih db]
      | false =>
        rcases ha : apply_migration exec db f with ⟨db', o⟩
        cases o with
        | none =>
          rw [migrationLoop_cons_ok hmem ha]
          simp [List.countP_cons, Event.isFAILED, ih db']
        | some e =>
          rw [migrationLoop_cons_fail hmem ha]
          simp [List.countP_cons, List.countP_nil, Event.isFAILED]

lemma migrationLoop_failedCount_le_one :
    ∀ (files : List MigFile) (db : DB S),
      (migrationLoop exec dry applied files db).failedCount ≤ 1 := by
  intro files
  induction files with
  | nil => intro db; exact Nat.zero_le 1
  | cons f rest ih =>
    intro db
    by_cases hmem : extract_migration_id f.name ∈ applied
    · rw [migrationLoop_cons_skip hmem]; exact ih db
    · cases dry with
      | true => rw [migrationLoop_cons_dry hmem]; exact ih db
      | false =>
        rcases ha : apply_migration exec db f with ⟨db', o⟩
        cases o with
        | none => rw [migrationLoop_cons_ok hmem ha]; exact ih db'
        | some e => rw [migrationLoop_cons_fail hmem ha]

lemma migrationLoop_failed_last :
    ∀ (files : List MigFile) (db : DB S) (i : Nat) (ev : Event),
      (migrationLoop exec dry applied files db).events.get? i = some ev →
      ev.isFAILED = true →
        i + 1 = (migrationLoop exec dry applied files db).events.length := by
  intro files
  induction files with
  | nil => intro db i ev h; simp [migrationLoop_nil] at h
  | cons f rest ih =>
    intro db i ev h hf
    by_cases hmem : extract_migration_id f.name ∈ applied
    · rw [migrationLoop_cons_skip hmem] at h ⊢
      cases i with
      | zero =>
        simp only [List.get?_cons_zero, Option.some.injEq] at h
        rw [← h] at hf
        simp [Event.isFAILED] at hf
      | succ j =>
        simp only [List.get?_cons_succ] at h
        simp only [List.length_cons]
        rw [ih db j ev h hf]
    · cases dry with
      | true =>
        rw [migrationLoop_cons_dry hmem] at h ⊢
        cases i with
        | zero =>
          simp only [List.get?_cons_zero, Option.some.injEq] at h
          rw [← h] at hf
          simp [Event.isFAILED] at hf
        | succ j =>
          simp only [List.get?_cons_succ] at h
          simp only [List.length_cons]
          rw [ih db j ev h hf]
      | false =>
        rcases ha : apply_migration exec db f with ⟨db', o⟩
        cases o with
        | none =>
          rw [migrationLoop_cons_ok hmem ha] at h ⊢
          cases i with
          | zero =>
            simp only [List.get?_cons_zero, Option.some.injEq] at h
            rw [← h] at hf
            simp [Event.isFAILED] at hf
          | succ j =>
            simp only [List.get?_cons_succ] at h
            simp only [List.length_cons]
            rw [ih db' j ev h hf]
        | some e =>
          rw [migrationLoop_cons_fail hmem ha] at h ⊢
          cases i with
          | zero => rfl
          | succ j => simp at h

lemma migrationLoop_events_map_fileName :
    ∀ (files : List MigFile) (db : DB S),
      (migrationLoop exec dry applied files db).events.map Event.fileName
        = (files.take (migrationLoop exec dry applied files db).events.length).map
            MigFile.name := by
  intro files
  induction files with
  | nil => intro db; rfl
  | cons f rest ih =>
    intro db
    by_cases hmem : extract_migration_id f.name ∈ applied
    · rw [migrationLoop_cons_skip hmem]
      simp only [List.map_cons, List.length_cons, List.take_succ_cons]
      rw [ih db]
      rfl
    · cases dry with
      | true =>
        rw [migrationLoop_cons_dry hmem]
        simp only [List.map_cons, List.length_cons, List.take_succ_cons]
        rw [ih db]
        rfl
      | false =>
        rcases ha : apply_migration exec db f with ⟨db', o⟩
        cases o with
        | none =>
          rw [migrationLoop_cons_ok hmem ha]
          simp only [List.map_cons, List.length_cons, List.take_succ_cons]
          rw [ih db']
          rfl
        | some e =>
          rw [migrationLoop_cons_fail hmem ha]
          rfl

lemma migrationLoop_events_length_le :
    ∀ (files : List MigFile) (db : DB S),
      (migrationLoop exec dry applied files db).events.length ≤ files.length := by
  intro files
  induction files with
  | nil => intro db; exact Nat.zero_le 0
  | cons f rest ih =>
    intro db
    by_cases hmem : extract_migration_id f.name ∈ applied
    · rw [migrationLoop_cons_skip hmem]
      exact Nat.succ_le_succ (ih db)
    · cases dry with
      | true =>
        rw [migrationLoop_cons_dry hmem]
        exact Nat.succ_le_succ (ih db)
      | false =>
        rcases ha : apply_migration exec db f with ⟨db', o⟩
        cases o with
        | none =>
          rw [migrationLoop_cons_ok hmem ha]
          exact Nat.succ_le_succ (ih db')
        | some e =>
          rw [migrationLoop_cons_fail hmem ha]
          exact Nat.succ_le_succ (Nat.zero_le _)

lemma migrationLoop_all_skipped :
    ∀ (files : List MigFile) (db : DB S),
      (∀ f ∈ files, extract_migration_id f.name ∈ applied) →
      migrationLoop exec dry applied files db =
        ⟨0, 0, files.map (fun f => Event.SKIPPED_ALREADY_APPLIED f.name), db⟩ := by
  intro files
  induction files with
  | nil => intro db _; rfl
  | cons f rest ih =>
    intro db hall
    rw [migrationLoop_cons_skip (hall f (List.mem_cons_self f rest))]
    rw [ih db (fun g hg => hall g (List.mem_cons_of_mem f hg))]
    rfl

lemma migrationLoop_dry_db :
    ∀ (files : List MigFile) (db : DB S),
      (migrationLoop exec true applied files db).db = db := by
  intro files
  induction files with
  | nil => intro db; rfl
  | cons f rest ih =>
    intro db
    by_cases hmem : extract_migration_id f.name ∈ applied
    · rw [migrationLoop_cons_skip hmem]; exact ih db
    · rw [migrationLoop_cons_dry hmem]; exact ih db

lemma migrationLoop_dry_failedCount :
    ∀ (files : List MigFile) (db : DB S),
      (migrationLoop exec true applied files db).failedCount = 0 := by
  intro files
  induction files with
  | nil => intro db; rfl
  | cons f rest ih =>
    intro db
    by_cases hmem : extract_migration_id f.name ∈ applied
    · rw [migrationLoop_cons_skip hmem]; exact ih db
    · rw [migrationLoop_cons_dry hmem]; exact ih db

lemma migrationLoop_dry_setContent (g : String → Except String String) :
    ∀ (files : List MigFile) (db : DB S),
      migrationLoop exec true applied (files.map (setContent g)) db
        = migrationLoop exec true applied files db := by
  intro files
  induction files with
  | nil => intro db; rfl
  | cons f rest ih =>
    intro db
    have hn : (setContent g f).name = f.name := rfl
    simp only [List.map_cons]
    by_cases hmem : extract_migration_id f.name ∈ applied
    · rw [migrationLoop_cons_skip hmem, migrationLoop_cons_skip (f := setContent g f) (hn ▸ hmem)]
      rw [ih db]
      rfl
    · rw [migrationLoop_cons_dry hmem, migrationLoop_cons_dry (f := setContent g f) (hn ▸ hmem)]
      rw [ih db]
      rfl

end

/-! ## Applied-set growth lemmas -/

section
variable {S : Type} {exec : String → S → Except String S} {dry : Bool}
variable {applied : List String}

lemma migrationLoop_fresh_success :
    ∀ (files : List MigFile) (db : DB S) (rows : List String),
      db.schema_migrations = some rows →
      (∀ f ∈ files, extract_migration_id f.name ∉ rows) →
      (∀ f ∈ files, extract_migration_id f.name ∉ applied) →
      (files.map (fun f => extract_migration_id f.name)).Nodup →
      (migrationLoop exec false applied files db).failedCount = 0 →
      (migrationLoop exec false applied files db).db.schema_migrations
        = some (rows ++ files.map (fun f => extract_migration_id f.name)) := by
  intro files
  induction files with
  | nil =>
    intro db rows hsm _ _ _ _
    simpa [migrationLoop_nil] using hsm
  | cons f rest ih =>
    intro db rows hsm hnew happ hnodup hfl
    have hmem : extract_migration_id f.name ∉ applied := happ f (List.mem_cons_self _ _)
    rcases ha : apply_migration exec db f with ⟨db', o⟩
    cases o with
    | some e =>
      rw [migrationLoop_cons_fail hmem ha] at hfl
      exact absurd hfl one_ne_zero
    | none =>
      have hok : (apply_migration exec db f).2 = none := by rw [ha]
      obtain ⟨body, s', hc, he, h1⟩ := apply_migration_ok_sm hsm hok
      have hdb' : db' = ⟨some (rows ++ [extract_migration_id f.name]), s'⟩ := by
        have h2 : (apply_migration exec db f).1 = db' := by rw [ha]
        rw [← h2, h1, if_neg (hnew f (List.mem_cons_self _ _))]
      rw [migrationLoop_cons_ok hmem ha] at hfl ⊢
      simp only [List.map_cons, List.nodup_cons] at hnodup
      have hfl' : (migrationLoop exec false applied rest db').failedCount = 0 := hfl
      have hnew' : ∀ g ∈ rest,
          extract_migration_id g.name ∉ rows ++ [extract_migration_id f.name] := by
        intro g hg
        rw [List.mem_append]
        rintro (h3 | h3)
        · exact hnew g (List.mem_cons_of_mem f hg) h3
        · rw [List.mem_singleton] at h3
          exact hnodup.1 (h3 ▸ List.mem_map_of_mem (fun x => extract_migration_id x.name) hg)
      have happ' : ∀ g ∈ rest, extract_migration_id g.name ∉ applied :=
        fun g hg => happ g (List.mem_cons_of_mem f hg)
      have hstep := ih db' (rows ++ [extract_migration_id f.name])
        (by rw [hdb']) hnew' happ' hnodup.2 hfl'
      show (migrationLoop exec false applied rest db').db.schema_migrations = _
      rw [hstep, List.append_assoc]
      simp

lemma migrationLoop_rows_mem :
    ∀ (files : List MigFile) (db : DB S) (mid : String),
      mid ∈ (migrationLoop exec dry applied files db).db.rows →
      mid ∈ db.rows ∨ ∃ f ∈ files, extract_migration_id f.name = mid ∧
        ∃ body s s', f.content = .ok body ∧ exec body s = .ok s' := by
  intro files
  induction files with
  | nil => intro db mid h; exact Or.inl h
  | cons f rest ih =>
    intro db mid h
    by_cases hmem : extract_migration_id f.name ∈ applied
    · rw [migrationLoop_cons_skip hmem] at h
      rcases ih db mid h with h1 | ⟨g, hg, hrest⟩
      · exact Or.inl h1
      · exact Or.inr ⟨g, List.mem_cons_of_mem f hg, hrest⟩
    · cases dry with
      | true =>
        rw [migrationLoop_cons_dry hmem] at h
        rcases ih db mid h with h1 | ⟨g, hg, hrest⟩
        · exact Or.inl h1
        · exact Or.inr ⟨g, List.mem_cons_of_mem f hg, hrest⟩
      | false =>
        rcases ha : apply_migration exec db f with ⟨db', o⟩
        cases o with
        | none =>
          rw [migrationLoop_cons_ok hmem ha] at h
          rcases ih db' mid h with h1 | ⟨g, hg, hrest⟩
          · have h2 : mid ∈ (apply_migration exec db f).1.rows := by rw [ha]; exact h1
            rcases apply_migration_rows h2 with h3 | ⟨heq, body, s', hc, he⟩
            · exact Or.inl h3
            · exact Or.inr ⟨f, List.mem_cons_self _ _, heq.symm, body, db.schema, s', hc, he⟩
          · exact Or.inr ⟨g, List.mem_cons_of_mem f hg, hrest⟩
        | some e =>
          rw [migrationLoop_cons_fail hmem ha] at h
          have h2 : mid ∈ (apply_migration exec db f).1.rows := by rw [ha]; exact h
          rcases apply_migration_rows h2 with h3 | ⟨heq, body, s', hc, he⟩
          · exact Or.inl h3
          · exact Or.inr ⟨f, List.mem_cons_self _ _, heq.symm, body, db.schema, s', hc, he⟩

end

/-! ## Run-level equations -/

/-- The catalog produced from a directory listing: the `*.sql` files in
ascending filename order. -/
def catalogOf (entries : List MigFile) : List MigFile :=
  List.insertionSort byName (entries.filter matchesSql)

section
variable {S : Type} {exec : String → S → Except String S} {dry : Bool}

lemma get_migration_files_some (entries : List MigFile) :
    get_migration_files (some entries) = some (catalogOf entries) := rfl

lemma run_migrations_conn_false (dir : Option (List MigFile)) (db : DB S) :
    run_migrations exec dry false dir db = ⟨1, 0, 0, [], db⟩ := rfl

lemma run_migrations_dir_none (db : DB S) :
    run_migrations exec dry true none db = ⟨1, 0, 0, [], db⟩ := rfl

lemma run_migrations_some_def (entries : List MigFile) (db : DB S) :
    run_migrations exec dry true (some entries) db =
      if (catalogOf entries).isEmpty then ⟨0, 0, 0, [], db⟩
      else
        let r := migrationLoop exec dry (create_migrations_table db).rows
          (catalogOf entries) (create_migrations_table db)
        ⟨if r.failedCount = 0 then 0 else 1, r.appliedCount, r.failedCount, r.events, r.db⟩ :=
  rfl

/-! ## Content independence of the catalog and of dry runs -/

lemma orderedInsert_setContent (g : String → Except String String) (a : MigFile) :
    ∀ l : List MigFile,
      List.orderedInsert byName (setContent g a) (l.map (setContent g))
        = (List.orderedInsert byName a l).map (setContent g) := by
  intro l
  induction l with
  | nil => rfl
  | cons b l ih =>
    simp only [List.map_cons, List.orderedInsert]
    by_cases h : byName a b
    · rw [if_pos h, if_pos (show byName (setContent g a) (setContent g b) from h)]
      rfl
    · rw [if_neg h, if_neg (show ¬byName (setContent g a) (setContent g b) from h)]
      rw [ih]
      rfl

lemma insertionSort_setContent (g : String → Except String String) :
    ∀ l : List MigFile,
      List.insertionSort byName (l.map (setContent g))
        = (List.insertionSort byName l).map (setContent g) := by
  intro l
  induction l with
  | nil => rfl
  | cons a l ih =>
    simp only [List.map_cons, List.insertionSort]
    rw [ih, orderedInsert_setContent]

lemma catalogOf_setContent (g : String → Except String String) (entries : List MigFile) :
    catalogOf (entries.map (setContent g)) = (catalogOf entries).map (setContent g) := by
  unfold catalogOf
  rw [List.filter_map]
  have hp : (matchesSql ∘ setContent g) = matchesSql := funext fun f => rfl
  rw [hp, insertionSort_setContent]

lemma run_migrations_dry_setContent (g : String → Except String String)
    (entries : List MigFile) (db : DB S) :
    run_migrations exec true true (some (entries.map (setContent g))) db
      = run_migrations exec true true (some entries) db := by
  rw [run_migrations_some_def, run_migrations_some_def, catalogOf_setContent]
  have hie : ((catalogOf entries).map (setContent g)).isEmpty = (catalogOf entries).isEmpty := by
    cases catalogOf entries <;> rfl
  rw [hie, migrationLoop_dry_setContent g (catalogOf entries) (create_migrations_table db)]

end

/-! ## Concrete fixtures used by witnesses -/

/-- A readable migration whose body succeeds under `execOK`/`execFail`. -/
def fileA : MigFile := ⟨"001_a.sql", .ok "create a"⟩

/-- A readable migration whose body fails under `execFail`. -/
def fileBbad : MigFile := ⟨"002_b.sql", .ok "bad"⟩

/-- A readable migration whose body succeeds. -/
def fileC : MigFile := ⟨"003_c.sql", .ok "create c"⟩

/-- An unreadable migration file: opening it raises an error. -/
def fileUnreadable : MigFile := ⟨"002_b.sql", .error "permission denied"⟩

/-- A non-`.sql` directory entry. -/
def fileDoc : MigFile := ⟨"readme.md", .ok "doc"⟩

/-- A script with two statements whose second statement fails. -/
def fileTwoStmt : MigFile := ⟨"004_two.sql", .ok "CREATE TABLE x; CREATE BAD"⟩

/-- Oracle under which `fileTwoStmt`'s body fails as a whole (single
transaction: the failure of its second statement fails the unit of work)
and every other body succeeds. -/
def execTwoStmt : String → List String → Except String (List String) :=
  fun b s =>
    if b = "CREATE TABLE x; CREATE BAD" then .error "error at second statement"
    else .ok (s ++ [b])

/-! ## Claims -/

/-- Claim C10: in a dry run with the connection obtained and the migrations
directory present, the FAILED outcome is unreachable and the exit code is 0,
regardless of the scripts' contents or readability (the statement quantifies
over arbitrary directory entries, including unreadable ones). -/
theorem C10_dry_run_exit_zero {S : Type} (exec : String → S → Except String S)
    (entries : List MigFile) (db : DB S) :
    (run_migrations exec true true (some entries) db).exit = 0 ∧
    (run_migrations exec true true (some entries) db).events.countP Event.isFAILED = 0 := by
  rw [run_migrations_some_def]
  by_cases he : (catalogOf entries).isEmpty
  · rw [if_pos he]
    exact ⟨rfl, rfl⟩
  · rw [if_neg he]
    constructor
    · show (if (migrationLoop exec true (create_migrations_table db).rows (catalogOf entries)
          (create_migrations_table db)).failedCount = 0 then 0 else 1) = 0
      rw [migrationLoop_dry_failedCount]
      rfl
    · show (migrationLoop exec true (create_migrations_table db).rows (catalogOf entries)
          (create_migrations_table db)).events.countP Event.isFAILED = 0
      rw [migrationLoop_countP_failed, migrationLoop_dry_failedCount]

/-- Claim C9: a migrations directory that exists but holds no `.sql` file
yields an empty catalog (not an error), and the run terminates with exit
code 0, zero applied, zero failed, no per-migration events, and the
database exactly as it was (no query is even attempted). -/
theorem C9_no_sql_files_ok {S : Type} (exec : String → S → Except String S)
    (dry : Bool) (entries : List MigFile) (db : DB S)
    (h : ∀ f ∈ entries, matchesSql f = false) :
    get_migration_files (some entries) = some [] ∧
    run_migrations exec dry true (some entries) db = ⟨0, 0, 0, [], db⟩ := by
  have hf : entries.filter matchesSql = [] := by
    rw [List.filter_eq_nil_iff]
    intro a ha
    rw [h a ha]
    exact Bool.false_ne_true
  have hcat : catalogOf entries = [] := by
    unfold catalogOf
    rw [hf]
    rfl
  refine ⟨?_, ?_⟩
  · rw [get_migration_files_some, hcat]
  · rw [run_migrations_some_def, hcat]
    rfl

/-- Witness for C9 at a directory holding a single non-`.sql` entry. -/
theorem C9_witness :
    get_migration_files (some [fileDoc]) = some [] ∧
    run_migrations execOK false true (some [fileDoc]) dbFresh = ⟨0, 0, 0, [], dbFresh⟩ :=
  C9_no_sql_files_ok execOK false [fileDoc] dbFresh (by decide)

/-- Helper for C3: the final database of a dry run is either the initial
one or the initial one with the empty bookkeeping table created. -/
lemma run_migrations_dry_final_db {S : Type} (exec : String → S → Except String S)
    (entries : List MigFile) (db : DB S) :
    (run_migrations exec true true (some entries) db).db = db ∨
    (run_migrations exec true true (some entries) db).db = create_migrations_table db := by
  rw [run_migrations_some_def]
  by_cases he : (catalogOf entries).isEmpty
  · rw [if_pos he]
    exact Or.inl rfl
  · rw [if_neg he]
    right
    show (migrationLoop exec true (create_migrations_table db).rows (catalogOf entries)
        (create_migrations_table db)).db = create_migrations_table db
    exact migrationLoop_dry_db _ _

/-- Claim C3 counterexample: a dry run over one pending migration against a
fresh database changes the database state — the bookkeeping table is created
by the run — so the state after the run does not equal the state before it,
and the run does not perform zero schema-level mutation. -/
theorem C3_counterexample :
    (run_migrations execOK true true (some [fileA]) dbFresh).db ≠ dbFresh ∧
    (run_migrations execOK true true (some [fileA]) dbFresh).db.schema_migrations
      ≠ dbFresh.schema_migrations := by
  constructor <;> decide

/-- Claim C3 (amended): a dry run never executes or reads any script body —
its outcome is unchanged under arbitrary replacement of every script's
content — and performs no database mutation beyond the idempotent creation
of the empty bookkeeping table when it is absent: the target schema state
and the bookkeeping rows (hence a fresh database's row count 0) are exactly
as before the run. -/
theorem C3_dry_run_reads_nothing_mutates_nothing {S : Type}
    (exec : String → S → Except String S) (connOk : Bool)
    (dir : Option (List MigFile)) (db : DB S)
    (g : String → Except String String) :
    (run_migrations exec true connOk dir db).db.schema = db.schema ∧
    (run_migrations exec true connOk dir db).db.rows = db.rows ∧
    ((run_migrations exec true connOk dir db).db = db ∨
      (run_migrations exec true connOk dir db).db = create_migrations_table db) ∧
    run_migrations exec true connOk (dir.map (List.map (setContent g))) db
      = run_migrations exec true connOk dir db := by
  cases connOk with
  | false => exact ⟨rfl, rfl, Or.inl rfl, rfl⟩
  | true =>
    cases dir with
    | none => exact ⟨rfl, rfl, Or.inl rfl, rfl⟩
    | some entries =>
      have hdb := run_migrations_dry_final_db exec entries db
      refine ⟨?_, ?_, hdb, ?_⟩
      · rcases hdb with h | h
        · rw [h]
        · rw [h, create_migrations_table_schema]
      · rcases hdb with h | h
        · rw [h]
        · rw [h, create_migrations_table_rows]
      · show run_migrations exec true true (some (entries.map (setContent g))) db
          = run_migrations exec true true (some entries) db
        exact run_migrations_dry_setContent g entries db

/-- Claim C4: when a migration's script execution raises an error, the
transaction is rolled back so the database — schema state and bookkeeping
rows alike — is exactly as before the attempt (a two-statement script whose
second statement fails leaves neither statement's effect, since the body
runs as one unit of work), `apply_migration` returns the failure carrying
the underlying error, and the loop makes exactly one attempt (one FAILED
event) and does not retry. -/
theorem C4_script_error_rolls_back {S : Type} (exec : String → S → Except String S)
    (db : DB S) (f : MigFile) (body e : String) (applied : List String)
    (rest : List MigFile)
    (hc : f.content = .ok body) (he : exec body db.schema = .error e) :
    apply_migration exec db f = (db, some e) ∧
    (extract_migration_id f.name ∉ applied →
      migrationLoop exec false applied (f :: rest) db
        = ⟨0, 1, [.FAILED f.name e], db⟩) := by
  have ha : apply_migration exec db f = (db, some e) := apply_migration_exec_err hc he
  exact ⟨ha, fun hmem => migrationLoop_cons_fail hmem ha⟩

/-- Witness for C4: a script of two statements whose second fails leaves
the database unchanged — no schema effect, no bookkeeping row — and the
loop halts after the single failed attempt. -/
theorem C4_witness :
    apply_migration execTwoStmt ⟨some [], []⟩ fileTwoStmt
      = (⟨some [], []⟩, some "error at second statement") ∧
    migrationLoop execTwoStmt false [] [fileTwoStmt, fileA] ⟨some [], []⟩
      = ⟨0, 1, [.FAILED "004_two.sql" "error at second statement"], ⟨some [], []⟩⟩ := by
  have h := C4_script_error_rolls_back execTwoStmt ⟨some [], []⟩ fileTwoStmt
    "CREATE TABLE x; CREATE BAD" "error at second statement" [] [fileA]
    (by decide) (by decide)
  exact ⟨h.1, h.2 (by decide)⟩

/-- Claim C8 counterexample: with the second of two migration files
unreadable, the run does *not* fail before any migration is applied — the
first migration is executed and recorded in the bookkeeping table, and only
then does the run report the failure with exit code 1. -/
theorem C8_counterexample :
    (run_migrations execOK false true (some [fileA, fileUnreadable]) dbFresh).exit = 1 ∧
    Event.APPLIED "001_a.sql"
      ∈ (run_migrations execOK false true (some [fileA, fileUnreadable]) dbFresh).events ∧
    "001_a" ∈ (run_migrations execOK false true (some [fileA, fileUnreadable]) dbFresh).db.rows := by
  refine ⟨?_, ?_, ?_⟩ <;> decide

/-- Claim C8 (amended): an unreadable script file does not abort the run up
front; it fails the run when that migration is reached: the open error is
caught, `apply_migration` returns the failure carrying it, the loop halts
there — the unreadable migration is not recorded, the database is left as it
was just before the attempt, and no later migration is attempted — and the
run exits 1; migrations earlier in catalog order have already been applied
and recorded. -/
theorem C8_unreadable_fails_when_reached {S : Type}
    (exec : String → S → Except String S) (applied : List String)
    (f : MigFile) (e : String) (rest : List MigFile) (db : DB S)
    (hc : f.content = .error e) (hmem : extract_migration_id f.name ∉ applied) :
    apply_migration exec db f = (db, some e) ∧
    migrationLoop exec false applied (f :: rest) db
      = ⟨0, 1, [.FAILED f.name e], db⟩ := by
  have ha : apply_migration exec db f = (db, some e) := apply_migration_content_err hc
  exact ⟨ha, migrationLoop_cons_fail hmem ha⟩

/-- Witness for C8's amended theorem at the concrete unreadable file. -/
theorem C8_witness :
    apply_migration execOK ⟨some ["001_a"], ["create a"]⟩ fileUnreadable
      = (⟨some ["001_a"], ["create a"]⟩, some "permission denied") ∧
    migrationLoop execOK false ["001_a"] [fileUnreadable, fileC] ⟨some ["001_a"], ["create a"]⟩
      = ⟨0, 1, [.FAILED "002_b.sql" "permission denied"], ⟨some ["001_a"], ["create a"]⟩⟩ :=
  C8_unreadable_fails_when_reached execOK ["001_a"] fileUnreadable "permission denied"
    [fileC] ⟨some ["001_a"], ["create a"]⟩ (by decide) (by decide)

/-- Claim C5: a migration's identity is its filename with the final
extension removed (any non-empty stem followed by `.sql` yields that stem);
a migration is reported `SKIPPED_ALREADY_APPLIED` if and only if that
identity is a member of the loaded applied set — membership is exact string
equality with no normalization — and a skipped migration contributes
nothing but its skip event: the rest of the loop runs on the same database,
and the file's content is never consulted. -/
theorem C5_identity_and_exact_skip {S : Type} (exec : String → S → Except String S)
    (dry : Bool) (applied : List String) (f : MigFile) (rest : List MigFile)
    (db : DB S) :
    (∀ base : String, base ≠ "" → extract_migration_id (base ++ ".sql") = base) ∧
    ((migrationLoop exec dry applied (f :: rest) db).events.get? 0
        = some (.SKIPPED_ALREADY_APPLIED f.name) ↔
      extract_migration_id f.name ∈ applied) ∧
    (extract_migration_id f.name ∈ applied →
      migrationLoop exec dry applied (f :: rest) db =
        (let r := migrationLoop exec dry applied rest db
         ⟨r.appliedCount, r.failedCount,
          .SKIPPED_ALREADY_APPLIED f.name :: r.events, r.db⟩)) := by
  refine ⟨fun base hb => extract_migration_id_append_sql base hb, ⟨?_, ?_⟩, ?_⟩
  · intro h
    by_contra hmem
    cases dry with
    | true =>
      rw [migrationLoop_cons_dry hmem] at h
      simp at h
    | false =>
      rcases ha : apply_migration exec db f with ⟨db', o⟩
      cases o with
      | none =>
        rw [migrationLoop_cons_ok hmem ha] at h
        simp at h
      | some e =>
        rw [migrationLoop_cons_fail hmem ha] at h
        simp at h
  · intro hmem
    rw [migrationLoop_cons_skip hmem]
    rfl
  · intro hmem
    exact migrationLoop_cons_skip hmem db

/-- Witness for C5: concrete identity derivation, a concrete skip that
leaves the loop state untouched, and a case-sensitivity check — an
upper-case entry in the applied set does not skip the lower-case file. -/
theorem C5_witness :
    extract_migration_id ("001_initial_schema" ++ ".sql") = "001_initial_schema" ∧
    migrationLoop execOK false ["001_a"] [fileA] ⟨some ["001_a"], []⟩
      = (let r := migrationLoop execOK false ["001_a"] ([] : List MigFile)
           (⟨some ["001_a"], []⟩ : DB (List String))
         ⟨r.appliedCount, r.failedCount,
          .SKIPPED_ALREADY_APPLIED "001_a.sql" :: r.events, r.db⟩) ∧
    ¬((migrationLoop execOK false ["001_A"] [fileA] dbFresh).events.get? 0
        = some (.SKIPPED_ALREADY_APPLIED "001_a.sql")) := by
  refine ⟨?_, ?_, ?_⟩
  · exact (C5_identity_and_exact_skip execOK false [] fileA [] dbFresh).1
      "001_initial_schema" (by decide)
  · exact (C5_identity_and_exact_skip execOK false ["001_a"] fileA []
      ⟨some ["001_a"], []⟩).2.2 (by decide)
  · intro h
    exact absurd ((C5_identity_and_exact_skip execOK false ["001_A"] fileA []
      dbFresh).2.1.mp h) (by decide)

/-- Claim C7: for an existing directory, the catalog is exactly the entries
whose name matches `*.sql` (i.e. ends with `.sql`), arranged in ascending
code-point-lexicographic filename order, and every per-migration event of a
run reports the file at the same position of that catalog — the catalog
order is the order in which the runner considers migrations. -/
theorem C7_catalog_selection_and_order {S : Type} (entries : List MigFile)
    (exec : String → S → Except String S) (dry : Bool) (db : DB S) :
    (∀ f, f ∈ catalogOf entries ↔ f ∈ entries ∧ matchesSql f = true) ∧
    List.Sorted byName (catalogOf entries) ∧
    get_migration_files (some entries) = some (catalogOf entries) ∧
    (∀ i ev, (run_migrations exec dry true (some entries) db).events.get? i = some ev →
      ∃ f, (catalogOf entries).get? i = some f ∧ ev.fileName = f.name) := by
  refine ⟨?_, ?_, rfl, ?_⟩
  · intro f
    unfold catalogOf
    rw [(List.perm_insertionSort byName (entries.filter matchesSql)).mem_iff,
      List.mem_filter]
  · exact List.sorted_insertionSort byName (entries.filter matchesSql)
  · intro i ev h
    rw [run_migrations_some_def] at h
    by_cases he : (catalogOf entries).isEmpty
    · rw [if_pos he] at h
      simp at h
    · rw [if_neg he] at h
      have h' : (migrationLoop exec dry (create_migrations_table db).rows
          (catalogOf entries) (create_migrations_table db)).events.get? i = some ev := h
      obtain ⟨hlt, -⟩ := List.get?_eq_some.mp h'
      have hmap := @migrationLoop_events_map_fileName S exec dry
        (create_migrations_table db).rows (catalogOf entries) (create_migrations_table db)
      have h1 : ((migrationLoop exec dry (create_migrations_table db).rows
          (catalogOf entries) (create_migrations_table db)).events.map
            Event.fileName).get? i = some ev.fileName := by
        rw [List.get?_map, h']
        rfl
      rw [hmap, List.get?_map, List.get?_take hlt] at h1
      cases hf : (catalogOf entries).get? i with
      | none =>
        rw [hf] at h1
        simp at h1
      | some f =>
        rw [hf] at h1
        simp at h1
        exact ⟨f, rfl, h1.symm⟩

/-- Witness for C7: a directory listed out of order with a non-`.sql`
entry; the first run event reports the file at position 0 of the catalog,
which is the lexicographically least `.sql` file. -/
theorem C7_witness :
    ∃ f, (catalogOf [fileBbad, fileDoc, fileA]).get? 0 = some f ∧
      (Event.WOULD_APPLY "001_a.sql").fileName = f.name :=
  (C7_catalog_selection_and_order [fileBbad, fileDoc, fileA] execOK true dbFresh).2.2.2
    0 (Event.WOULD_APPLY "001_a.sql") (by decide)

/-- Claim C2: in a non-dry run (connection obtained, directory present), at
most one migration fails; the exit code is 1 exactly when some migration
produced a FAILED event and 0 otherwise; a FAILED event can only be the
last event of the run; and once a migration's apply fails, everything after
it in catalog order is ignored — the loop result is literally independent
of the remaining files, so they are neither executed nor read. -/
theorem C2_fail_fast_halt :
    (∀ (S : Type) (exec : String → S → Except String S) (entries : List MigFile)
      (db : DB S),
      (run_migrations exec false true (some entries) db).failedCount ≤ 1 ∧
      (run_migrations exec false true (some entries) db).exit
        = (if (run_migrations exec false true (some entries) db).events.countP
              Event.isFAILED = 0 then 0 else 1) ∧
      (∀ i ev,
        (run_migrations exec false true (some entries) db).events.get? i = some ev →
        ev.isFAILED = true →
        i + 1 = (run_migrations exec false true (some entries) db).events.length)) ∧
    (∀ (S : Type) (exec : String → S → Except String S) (applied : List String)
      (f : MigFile) (rest rest' : List MigFile) (db : DB S) (e : String),
      (apply_migration exec db f).2 = some e →
      extract_migration_id f.name ∉ applied →
      migrationLoop exec false applied (f :: rest) db
        = migrationLoop exec false applied (f :: rest') db) := by
  constructor
  · intro S exec entries db
    rw [run_migrations_some_def]
    by_cases he : (catalogOf entries).isEmpty
    · rw [if_pos he]
      refine ⟨Nat.zero_le 1, rfl, ?_⟩
      intro i ev h
      simp at h
    · rw [if_neg he]
      refine ⟨?_, ?_, ?_⟩
      · show (migrationLoop exec false (create_migrations_table db).rows
            (catalogOf entries) (create_migrations_table db)).failedCount ≤ 1
        exact migrationLoop_failedCount_le_one _ _
      · show (if (migrationLoop exec false (create_migrations_table db).rows
            (catalogOf entries) (create_migrations_table db)).failedCount = 0
            then 0 else 1)
          = (if (migrationLoop exec false (create_migrations_table db).rows
              (catalogOf entries) (create_migrations_table db)).events.countP
                Event.isFAILED = 0 then 0 else 1)
        rw [migrationLoop_countP_failed]
      · intro i ev h hf
        exact migrationLoop_failed_last _ _ i ev h hf
  · intro S exec applied f rest rest' db e ha hmem
    have hx : apply_migration exec db f = ((apply_migration exec db f).1, some e) := by
      rw [← ha]
    rw [migrationLoop_cons_fail hmem hx, migrationLoop_cons_fail hmem hx]

/-- Witness for C2: a run whose second migration fails — the FAILED event at
position 1 is the last of the two events — and a loop whose head migration
is unreadable, whose result ignores the differing tails. -/
theorem C2_witness :
    1 + 1 = (run_migrations execFail false true
      (some [fileBbad, fileA, fileC]) dbFresh).events.length ∧
    migrationLoop execOK false [] [fileUnreadable, fileA] ⟨some [], []⟩
      = migrationLoop execOK false [] [fileUnreadable] ⟨some [], []⟩ := by
  constructor
  · exact (C2_fail_fast_halt.1 (List String) execFail [fileBbad, fileA, fileC]
      dbFresh).2.2 1 (Event.FAILED "002_b.sql" "boom") (by decide) (by decide)
  · exact C2_fail_fast_halt.2 (List String) execOK [] fileUnreadable [fileA] []
      ⟨some [], []⟩ "permission denied" (by decide) (by decide)

/-- Claim C1: every identity present in the bookkeeping table after a run
was either there before the run, or belongs to a catalog file whose content
was read successfully and whose body was executed by the oracle with
success — i.e. an Applied-Migration Record is inserted only after the
script's execution committed, never otherwise. -/
theorem C1_records_subset_committed {S : Type} (exec : String → S → Except String S)
    (dry connOk : Bool) (dir : Option (List MigFile)) (db : DB S) (mid : String)
    (h : mid ∈ (run_migrations exec dry connOk dir db).db.rows) :
    mid ∈ db.rows ∨ ∃ f ∈ (get_migration_files dir).getD [],
      extract_migration_id f.name = mid ∧
      ∃ body s s', f.content = .ok body ∧ exec body s = .ok s' := by
  cases connOk with
  | false => exact Or.inl h
  | true =>
    cases dir with
    | none => exact Or.inl h
    | some entries =>
      rw [run_migrations_some_def] at h
      by_cases he : (catalogOf entries).isEmpty
      · rw [if_pos he] at h
        exact Or.inl h
      · rw [if_neg he] at h
        have h' : mid ∈ (migrationLoop exec dry (create_migrations_table db).rows
            (catalogOf entries) (create_migrations_table db)).db.rows := h
        rcases migrationLoop_rows_mem (catalogOf entries) (create_migrations_table db)
          mid h' with h1 | ⟨f, hf, hrest⟩
        · rw [create_migrations_table_rows] at h1
          exact Or.inl h1
        · exact Or.inr ⟨f, hf, hrest⟩

/-- Witness for C1 at a run recording the single identity `001_a`. -/
theorem C1_witness :
    "001_a" ∈ dbFresh.rows ∨ ∃ f ∈ (get_migration_files (some [fileA])).getD [],
      extract_migration_id f.name = "001_a" ∧
      ∃ body s s', f.content = .ok body ∧ execOK body s = .ok s' :=
  C1_records_subset_committed execOK false true (some [fileA]) dbFresh "001_a" (by decide)

/-- Create-if-absent is the identity when the table already exists. -/
lemma create_migrations_table_of_some {S : Type} {db : DB S} {rows : List String}
    (h : db.schema_migrations = some rows) : create_migrations_table db = db := by
  obtain ⟨sm, sc⟩ := db
  cases sm with
  | none => simp at h
  | some r => rfl

/-- Claim C6: starting from a fresh database, after a fully successful
non-dry run of a migration set (identities unique within the catalog, as
the data model requires), a second non-dry run applies zero new migrations
— every migration's outcome is `SKIPPED_ALREADY_APPLIED` and nothing fails
— the database is left exactly as after the first run, and the bookkeeping
table's row count equals the number of migration files. -/
theorem C6_second_run_idempotent {S : Type} (exec : String → S → Except String S)
    (entries : List MigFile) (s0 : S)
    (hnodup : ((catalogOf entries).map (fun f => extract_migration_id f.name)).Nodup)
    (hok : (run_migrations exec false true (some entries) ⟨none, s0⟩).failedCount = 0) :
    (run_migrations exec false true (some entries)
        (run_migrations exec false true (some entries) ⟨none, s0⟩).db).appliedCount = 0 ∧
    (run_migrations exec false true (some entries)
        (run_migrations exec false true (some entries) ⟨none, s0⟩).db).failedCount = 0 ∧
    (run_migrations exec false true (some entries)
        (run_migrations exec false true (some entries) ⟨none, s0⟩).db).events
      = (catalogOf entries).map (fun f => Event.SKIPPED_ALREADY_APPLIED f.name) ∧
    (run_migrations exec false true (some entries)
        (run_migrations exec false true (some entries) ⟨none, s0⟩).db).db
      = (run_migrations exec false true (some entries) ⟨none, s0⟩).db ∧
    (run_migrations exec false true (some entries) ⟨none, s0⟩).db.rows.length
      = (catalogOf entries).length := by
  by_cases he : (catalogOf entries).isEmpty
  · have hcat : catalogOf entries = [] := List.isEmpty_iff.mp he
    have hr1 : run_migrations exec false true (some entries) (⟨none, s0⟩ : DB S)
        = ⟨0, 0, 0, [], ⟨none, s0⟩⟩ := by
      rw [run_migrations_some_def, if_pos he]
    have hdb : (run_migrations exec false true (some entries) (⟨none, s0⟩ : DB S)).db
        = (⟨none, s0⟩ : DB S) := by
      rw [hr1]
    refine ⟨?_, ?_, ?_, ?_, ?_⟩
    · rw [hdb, hr1]
    · rw [hdb, hr1]
    · rw [hdb, hr1, hcat]
      rfl
    · rw [hdb, hdb]
    · rw [hdb, hcat]
      rfl
  · have hr1 : run_migrations exec false true (some entries) (⟨none, s0⟩ : DB S)
        = ⟨if (migrationLoop exec false [] (catalogOf entries)
              (⟨some [], s0⟩ : DB S)).failedCount = 0 then 0 else 1,
           (migrationLoop exec false [] (catalogOf entries) ⟨some [], s0⟩).appliedCount,
           (migrationLoop exec false [] (catalogOf entries) ⟨some [], s0⟩).failedCount,
           (migrationLoop exec false [] (catalogOf entries) ⟨some [], s0⟩).events,
           (migrationLoop exec false [] (catalogOf entries) ⟨some [], s0⟩).db⟩ := by
      rw [run_migrations_some_def, if_neg he]
      rfl
    have hfl1 : (migrationLoop exec false [] (catalogOf entries)
        (⟨some [], s0⟩ : DB S)).failedCount = 0 := by
      rw [hr1] at hok
      exact hok
    have hsm1 := @migrationLoop_fresh_success S exec [] (catalogOf entries)
      ⟨some [], s0⟩ [] rfl (by simp) (by simp) hnodup hfl1
    rw [List.nil_append] at hsm1
    have hrows1 : (migrationLoop exec false [] (catalogOf entries)
        (⟨some [], s0⟩ : DB S)).db.rows
        = (catalogOf entries).map (fun f => extract_migration_id f.name) := by
      rw [DB.rows, hsm1]
      rfl
    have hdb1 : (run_migrations exec false true (some entries) (⟨none, s0⟩ : DB S)).db
        = (migrationLoop exec false [] (catalogOf entries) (⟨some [], s0⟩ : DB S)).db := by
      rw [hr1]
    have hcr : create_migrations_table
        (migrationLoop exec false [] (catalogOf entries) (⟨some [], s0⟩ : DB S)).db
        = (migrationLoop exec false [] (catalogOf entries) (⟨some [], s0⟩ : DB S)).db :=
      create_migrations_table_of_some hsm1
    have hall : ∀ f ∈ catalogOf entries, extract_migration_id f.name
        ∈ (migrationLoop exec false [] (catalogOf entries) (⟨some [], s0⟩ : DB S)).db.rows := by
      rw [hrows1]
      intro f hf
      exact List.mem_map_of_mem _ hf
    have hskip := @migrationLoop_all_skipped S exec false
      ((migrationLoop exec false [] (catalogOf entries) (⟨some [], s0⟩ : DB S)).db.rows)
      (catalogOf entries)
      ((migrationLoop exec false [] (catalogOf entries) (⟨some [], s0⟩ : DB S)).db) hall
    have hr2 : run_migrations exec false true (some entries)
        (migrationLoop exec false [] (catalogOf entries) (⟨some [], s0⟩ : DB S)).db
        = ⟨0, 0, 0,
           (catalogOf entries).map (fun f => Event.SKIPPED_ALREADY_APPLIED f.name),
           (migrationLoop exec false [] (catalogOf entries) (⟨some [], s0⟩ : DB S)).db⟩ := by
      rw [run_migrations_some_def, if_neg he, hcr, hskip]
      rfl
    rw [hdb1, hr2]
    exact ⟨rfl, rfl, rfl, rfl, by rw [hrows1, List.length_map]⟩

/-- Witness for C6: two migrations applied from scratch, then re-run. -/
theorem C6_witness :
    (run_migrations execOK false true (some [fileA, fileC])
        (run_migrations execOK false true (some [fileA, fileC]) ⟨none, []⟩).db).appliedCount = 0 ∧
    (run_migrations execOK false true (some [fileA, fileC])
        (run_migrations execOK false true (some [fileA, fileC]) ⟨none, []⟩).db).failedCount = 0 ∧
    (run_migrations execOK false true (some [fileA, fileC])
        (run_migrations execOK false true (some [fileA, fileC]) ⟨none, []⟩).db).events
      = (catalogOf [fileA, fileC]).map (fun f => Event.SKIPPED_ALREADY_APPLIED f.name) ∧
    (run_migrations execOK false true (some [fileA, fileC])
        (run_migrations execOK false true (some [fileA, fileC]) ⟨none, []⟩).db).db
      = (run_migrations execOK false true (some [fileA, fileC]) ⟨none, []⟩).db ∧
    (run_migrations execOK false true (some [fileA, fileC]) ⟨none, []⟩).db.rows.length
      = (catalogOf [fileA, fileC]).length :=
  C6_second_run_idempotent execOK [fileA, fileC] [] (by decide) (by decide)
